import Mathlib

/-!
Shallow embedding of the video-session admission and host-control core of
the kalba backend (src/app/api/v1/video.py and its data model in
src/app/models/video.py, src/app/models/workshop.py, src/app/models/user.py).

Conventions of the embedding:
* UUIDs become `Nat` identities; `datetime` instants become `Int` seconds
  (`timedelta(minutes=m)` is `m * 60`).
* The database session becomes an explicit `Db` value holding the four
  tables as lists; `select ... .first()` is `List.find?`, the SQL `count`
  is a `List.filter` length, and in-place row mutation followed by commit
  is `updateFirst`.
* The external Daily.co gateway is an oracle value: the result each call
  would return.  The meeting-token request the handler builds is returned
  as part of the successful join result so its parameters are observable.
* `HTTPException(status_code=s, detail=d)` becomes `Except.error ⟨s, d⟩`.
* Auto-generated primary-key `id` columns (`uuid4` defaults) are omitted:
  they are external nondeterminism no handler reads.
-/

namespace Kalba

/-- `LateJoinBehavior` enum from src/app/models/video.py. -/
inductive LateJoinBehavior where
  | allow
  | allow_muted
  | deny
deriving DecidableEq, Repr

/-- `HostActionType` enum from src/app/models/video.py. -/
inductive HostActionType where
  | mute_all
  | unmute_all
  | cameras_off_all
  | cameras_on_all
deriving DecidableEq, Repr

/-- `.value` of a `HostActionType` member (Python str enum). -/
def HostActionType.value : HostActionType → String
  | .mute_all => "mute_all"
  | .unmute_all => "unmute_all"
  | .cameras_off_all => "cameras_off_all"
  | .cameras_on_all => "cameras_on_all"

/-- `ParticipantRole` enum from src/app/models/video.py. -/
inductive ParticipantRole where
  | host
  | participant
deriving DecidableEq, Repr

/-- `.value` of a `ParticipantRole` member (Python str enum). -/
def ParticipantRole.value : ParticipantRole → String
  | .host => "host"
  | .participant => "participant"

/-- `Workshop` table row, src/app/models/workshop.py (fields the video
handlers read; `title`, `description`, `price` are never consulted). -/
structure Workshop where
  id : Nat
  trainer_id : Nat
  start_time : Int
  duration_minutes : Nat
  max_participants : Nat
  video_room_id : Option String := none
deriving DecidableEq, Repr

/-- `WorkshopRules` table row, src/app/models/video.py, with its column
defaults. -/
structure WorkshopRules where
  workshop_id : Nat
  force_camera_on : Bool := true
  force_mic_muted_on_join : Bool := true
  allow_unmute_after : Nat := 0
  allow_camera_toggle : Bool := true
  late_join_behavior : LateJoinBehavior := .allow_muted
  all_muted : Bool := false
  all_cameras_off : Bool := false
deriving DecidableEq, Repr

/-- `WorkshopParticipant` table row, src/app/models/video.py. -/
structure WorkshopParticipant where
  user_id : Nat
  workshop_id : Nat
  role : ParticipantRole := .participant
  joined_at : Option Int := none
deriving DecidableEq, Repr

/-- `User` table row, src/app/models/user.py (fields the video handlers
read). -/
structure User where
  id : Nat
  email : String
  full_name : String := ""
deriving DecidableEq, Repr

/-- The four tables the video handlers touch, as one database state. -/
structure Db where
  workshops : List Workshop
  participants : List WorkshopParticipant
  rules : List WorkshopRules
  users : List User
deriving DecidableEq, Repr

/-- Modelled from the spec: the configured video domain (spec §9 names a
"domain name" among the settings).  `join_workshop` in
src/app/api/v1/video.py reads `settings.daily_domain`; the `Settings`
class declared in src/app/core/config.py carries no such field, so the
value is embedded here as an abstract configured string. -/
structure Settings where
  daily_domain : String
deriving DecidableEq, Repr

/-- `RulesRead` response model, src/app/models/video.py. -/
structure RulesRead where
  force_camera_on : Bool
  force_mic_muted_on_join : Bool
  allow_unmute_after : Nat
  allow_camera_toggle : Bool
  all_muted : Bool
  all_cameras_off : Bool
deriving DecidableEq, Repr

/-- `JoinResponse` response model, src/app/models/video.py. -/
structure JoinResponse where
  token : String
  room_url : String
  role : String
  rules : RulesRead
deriving DecidableEq, Repr

/-- `HostAction` request body, src/app/models/video.py. -/
structure HostAction where
  action : HostActionType
  target_user_id : Option Nat := none
deriving DecidableEq, Repr

/-- `HostActionResponse` response model, src/app/models/video.py. -/
structure HostActionResponse where
  status : String
  action : HostActionType
  broadcast_sent : Bool
deriving DecidableEq, Repr

/-- Outcome of a call to the external gateway that returns no payload the
handler uses (`create_room`, `send_app_message`): success, or a
`DailyServiceError` carrying status code and detail text. -/
inductive RoomResult where
  | ok
  | err (status : Nat) (detail : String)
deriving DecidableEq, Repr

/-- Outcome of `create_meeting_token`: a token string, or a
`DailyServiceError`. -/
inductive TokenResult where
  | ok (token : String)
  | err (status : Nat) (detail : String)
deriving DecidableEq, Repr

/-- Parameters `join_workshop` passes to `daily.create_meeting_token`. -/
structure TokenRequest where
  room_name : Option String
  user_name : String
  user_id : Nat
  is_owner : Bool
  exp_minutes : Nat
  start_video_off : Bool
  start_audio_off : Bool
deriving DecidableEq, Repr

/-- The external gateway as an oracle: what each call made during one
request would return. -/
structure DailyOracle where
  createRoomResult : RoomResult
  createTokenResult : TokenResult
deriving DecidableEq, Repr

/-- An `HTTPException`: status code and detail string. -/
structure ApiError where
  status : Nat
  detail : String
deriving DecidableEq, Repr

/-- `app-message` payload built by `host_action` (the `message_data`
dict). -/
structure AppMessage where
  msg_type : String
  action : String
  timestamp : String
  msg_from : String
deriving DecidableEq, Repr

instance instDecEqExcept {ε α : Type} [DecidableEq ε] [DecidableEq α] :
    DecidableEq (Except ε α) := fun x y =>
  match x, y with
  | .error a, .error b =>
    if h : a = b then isTrue (by rw [h])
    else isFalse (fun hc => by cases hc; exact h rfl)
  | .error _, .ok _ => isFalse (fun hc => by cases hc)
  | .ok _, .error _ => isFalse (fun hc => by cases hc)
  | .ok a, .ok b =>
    if h : a = b then isTrue (by rw [h])
    else isFalse (fun hc => by cases hc; exact h rfl)

/-- `session.get(Workshop, workshop_id)`. -/
def findWorkshop (db : Db) (wid : Nat) : Option Workshop :=
  db.workshops.find? (fun w => w.id == wid)

/-- `select(WorkshopRules).where(workshop_id == wid) ... .first()`. -/
def findRules (db : Db) (wid : Nat) : Option WorkshopRules :=
  db.rules.find? (fun r => r.workshop_id == wid)

/-- `session.get(User, user_id)`. -/
def findUser (db : Db) (uid : Nat) : Option User :=
  db.users.find? (fun u => u.id == uid)

/-- `select(WorkshopParticipant).where(user_id == uid, workshop_id == wid)
... .first()`. -/
def findParticipant (db : Db) (uid wid : Nat) : Option WorkshopParticipant :=
  db.participants.find? (fun p => p.user_id == uid && p.workshop_id == wid)

/-- `select(func.count()).select_from(WorkshopParticipant).where(workshop_id
== wid, role == PARTICIPANT)`. -/
def participantCount (db : Db) (wid : Nat) : Nat :=
  (db.participants.filter
    (fun p => p.workshop_id == wid && p.role == ParticipantRole.participant)).length

/-- All membership rows of one (user, workshop) pair. -/
def membershipRows (db : Db) (uid wid : Nat) : List WorkshopParticipant :=
  db.participants.filter (fun p => p.user_id == uid && p.workshop_id == wid)

/-- Mutate the first row matching `p` in place (ORM row update followed by
commit). -/
def updateFirst (p : α → Bool) (f : α → α) : List α → List α
  | [] => []
  | a :: t => if p a then f a :: t else a :: updateFirst p f t

/-- Python truthiness of an `Optional[str]`: falsy iff `None` or `""`. -/
def optFalsy : Option String → Bool
  | none => true
  | some s => s == ""

/-- Whether `needle` occurs as a contiguous sublist of the second list
(Python `needle in haystack` on strings). -/
def subListOf (needle : List Char) : List Char → Bool
  | [] => needle.isEmpty
  | c :: t => needle.isPrefixOf (c :: t) || subListOf needle t

/-- Python `needle in hay` for strings. -/
def strContainsSub (needle hay : String) : Bool :=
  subListOf needle.toList hay.toList

/-- `user.full_name or user.email` (empty string is falsy). -/
def displayName (u : User) : String :=
  if u.full_name == "" then u.email else u.full_name

/-- `workshop.video_room_id or f"kalba-{workshop.id}"`. -/
def roomNameFor (w : Workshop) : String :=
  match w.video_room_id with
  | some s => if s == "" then "kalba-" ++ toString w.id else s
  | none => "kalba-" ++ toString w.id

/-- Lower bound of the admission window: `start_time - timedelta(minutes=5)`. -/
def earliestJoin (w : Workshop) : Int :=
  w.start_time - 5 * 60

/-- Upper bound of the admission window:
`start_time + timedelta(minutes=duration_minutes + 10)`. -/
def latestJoin (w : Workshop) : Int :=
  w.start_time + ((w.duration_minutes : Int) + 10) * 60

/-- Step 5 of `join_workshop`: upsert the caller's membership row. -/
def upsertParticipant (db : Db) (uid wid : Nat) (role : ParticipantRole)
    (now : Int) : Db :=
  match findParticipant db uid wid with
  | none =>
    let newRow : WorkshopParticipant :=
      { user_id := uid, workshop_id := wid, role := role, joined_at := some now }
    { db with participants := db.participants ++ [newRow] }
  | some _ =>
    let updated :=
      updateFirst (fun p => p.user_id == uid && p.workshop_id == wid)
        (fun p => { p with joined_at := some now }) db.participants
    { db with participants := updated }

/-- Step 6's error handling around `daily.create_room`: `none` when the
join may continue (success, or a benign "already exists" conflict),
otherwise the 502 raised. -/
def roomCheckOf (res : RoomResult) : Option ApiError :=
  match res with
  | .ok => none
  | .err _ d =>
    if strContainsSub "already exists" d then none
    else some ⟨502, "Video service unavailable"⟩

/-- Successful outcome of `join_workshop`: the HTTP response, the database
state after the commits, and the meeting-token request issued to the
gateway. -/
structure JoinOk where
  response : JoinResponse
  db : Db
  tokenReq : TokenRequest
deriving DecidableEq, Repr

/-- Database state after the commits of steps 5 and 6 of `join_workshop`:
the membership upsert, then — when `video_room_id` was unset — the
workshop row updated with the deterministic room name. -/
def provisionDb (wid uid : Nat) (now : Int) (db : Db) (workshop : Workshop)
    (role : ParticipantRole) : Db :=
  let db1 := upsertParticipant db uid wid role now
  if optFalsy workshop.video_room_id then
    let w' := { workshop with video_room_id := some (roomNameFor workshop) }
    let ws' := updateFirst (fun w => w.id == wid) (fun _ => w') db1.workshops
    { db1 with workshops := ws' }
  else db1

/-- The workshop row as `join_workshop` sees it after step 6 (refreshed
when the room id was just assigned). -/
def provisionedWorkshop (workshop : Workshop) : Workshop :=
  if optFalsy workshop.video_room_id then
    { workshop with video_room_id := some (roomNameFor workshop) }
  else workshop

/-- Steps 5–9 of `join_workshop` (membership upsert, room provisioning,
rules read, token issuance, response), reached once the gates of steps
1–4 passed.  Error outcomes carry no database state: no claim observes
state after a failed join (in the source the step-5 commit does survive a
later 502). -/
def joinProvision (wid uid : Nat) (now : Int) (db : Db) (settings : Settings)
    (daily : DailyOracle) (workshop : Workshop) (is_host : Bool)
    (role : ParticipantRole) : Except ApiError JoinOk :=
        match roomCheckOf daily.createRoomResult with
        | some e => .error e
        | none =>
          let workshop2 := provisionedWorkshop workshop
          let db2 := provisionDb wid uid now db workshop role
          let rules_row := findRules db2 wid
          let force_camera_on :=
            match rules_row with | some r => r.force_camera_on | none => true
          let force_mic_muted :=
            match rules_row with | some r => r.force_mic_muted_on_join | none => true
          let allow_unmute_after :=
            match rules_row with | some r => r.allow_unmute_after | none => 0
          let allow_camera_toggle :=
            match rules_row with | some r => r.allow_camera_toggle | none => true
          let all_muted :=
            match rules_row with | some r => r.all_muted | none => false
          let all_cameras_off :=
            match rules_row with | some r => r.all_cameras_off | none => false
          match findUser db2 uid with
          | none => .error ⟨500, "Internal Server Error"⟩
          | some user =>
            let tokenReq : TokenRequest :=
              { room_name := workshop2.video_room_id
                user_name := displayName user
                user_id := uid
                is_owner := is_host
                exp_minutes := 10
                start_video_off := (!force_camera_on) || all_cameras_off
                start_audio_off := force_mic_muted || all_muted }
            match daily.createTokenResult with
            | .err _ _ => .error ⟨502, "Video service unavailable"⟩
            | .ok token =>
              let room_url :=
                "https://" ++ settings.daily_domain ++ "/"
                  ++ workshop2.video_room_id.getD ""
              .ok
                { response :=
                    { token := token
                      room_url := room_url
                      role := role.value
                      rules :=
                        { force_camera_on := force_camera_on
                          force_mic_muted_on_join := force_mic_muted
                          allow_unmute_after := allow_unmute_after
                          allow_camera_toggle := allow_camera_toggle
                          all_muted := all_muted
                          all_cameras_off := all_cameras_off } }
                  db := db2
                  tokenReq := tokenReq }

/-- `join_workshop` handler, src/app/api/v1/video.py (steps 1–4, then
`joinProvision`). -/
def joinWorkshop (wid uid : Nat) (now : Int) (db : Db) (settings : Settings)
    (daily : DailyOracle) : Except ApiError JoinOk :=
  match findWorkshop db wid with
  | none => .error ⟨404, "Workshop not found"⟩
  | some workshop =>
    if now < earliestJoin workshop then
      .error ⟨403, "Workshop has not started yet"⟩
    else if latestJoin workshop < now then
      .error ⟨403, "Workshop has ended"⟩
    else
      let is_host := uid == workshop.trainer_id
      let role := if is_host then ParticipantRole.host else ParticipantRole.participant
      if is_host = false ∧ workshop.max_participants ≤ participantCount db wid then
        .error ⟨403, "Workshop is full"⟩
      else
        joinProvision wid uid now db settings daily workshop is_host role

/-- `get_workshop_rules` handler, src/app/api/v1/video.py.  The second
argument is the authenticated caller identity, consumed only by the auth
dependency. -/
def getWorkshopRules (wid _uid : Nat) (db : Db) : Except ApiError RulesRead :=
  match findWorkshop db wid with
  | none => .error ⟨404, "Workshop not found"⟩
  | some _ =>
    let rules_row := findRules db wid
    .ok
      { force_camera_on :=
          match rules_row with | some r => r.force_camera_on | none => true
        force_mic_muted_on_join :=
          match rules_row with | some r => r.force_mic_muted_on_join | none => true
        allow_unmute_after :=
          match rules_row with | some r => r.allow_unmute_after | none => 0
        allow_camera_toggle :=
          match rules_row with | some r => r.allow_camera_toggle | none => true
        all_muted :=
          match rules_row with | some r => r.all_muted | none => false
        all_cameras_off :=
          match rules_row with | some r => r.all_cameras_off | none => false }

/-- The per-field rules read pattern appearing in step 7 of
`join_workshop` and again in `get_workshop_rules`: stored values when a
row exists, the handlers' literal defaults otherwise.  Stated separately
so the two code sites can be proved to agree with one view. -/
def rulesView (rules_row : Option WorkshopRules) : RulesRead :=
  { force_camera_on :=
      match rules_row with | some r => r.force_camera_on | none => true
    force_mic_muted_on_join :=
      match rules_row with | some r => r.force_mic_muted_on_join | none => true
    allow_unmute_after :=
      match rules_row with | some r => r.allow_unmute_after | none => 0
    allow_camera_toggle :=
      match rules_row with | some r => r.allow_camera_toggle | none => true
    all_muted :=
      match rules_row with | some r => r.all_muted | none => false
    all_cameras_off :=
      match rules_row with | some r => r.all_cameras_off | none => false }

/-- The live-state transition of `host_action` (the four-way dispatch on
`body.action`). -/
def applyHostAction (action : HostActionType) (rules : WorkshopRules) :
    WorkshopRules :=
  match action with
  | .mute_all => { rules with all_muted := true }
  | .unmute_all => { rules with all_muted := false }
  | .cameras_off_all => { rules with all_cameras_off := true }
  | .cameras_on_all => { rules with all_cameras_off := false }

/-- The stored rules row for a workshop, or a fresh default row
(`WorkshopRules(workshop_id=workshop_id)`) when none exists. -/
def storedOrDefault (db : Db) (wid : Nat) : WorkshopRules :=
  match findRules db wid with
  | some r => r
  | none => { workshop_id := wid }

/-- Load-or-create plus update plus commit of the rules row in
`host_action`: the database state after the persisted transition. -/
def persistHostRules (wid : Nat) (action : HostActionType) (db : Db) : Db :=
  match findRules db wid with
  | none =>
    { db with rules := db.rules ++ [applyHostAction action { workshop_id := wid }] }
  | some _ =>
    let updated :=
      updateFirst (fun r => r.workshop_id == wid)
        (fun r => applyHostAction action r) db.rules
    { db with rules := updated }

/-- Successful outcome of `host_action`: the response, the database state
after the commit, and the app-message the handler attempted to broadcast
(`none` when the workshop has no room id). -/
structure HostOk where
  response : HostActionResponse
  db : Db
  broadcastMsg : Option AppMessage
deriving DecidableEq, Repr

/-- `host_action` handler, src/app/api/v1/video.py.  `broadcast` is what
`daily.send_app_message` would return were it called. -/
def hostAction (wid actor_id : Nat) (body : HostAction) (now : Int) (db : Db)
    (broadcast : RoomResult) : Except ApiError HostOk :=
  match findWorkshop db wid with
  | none => .error ⟨404, "Workshop not found"⟩
  | some workshop =>
    if actor_id == workshop.trainer_id then
      let db' := persistHostRules wid body.action db
      let msg : Option AppMessage :=
        if optFalsy workshop.video_room_id then none
        else some { msg_type := "host_control", action := body.action.value,
                    timestamp := toString now, msg_from := "server" }
      let broadcast_sent :=
        match msg, broadcast with
        | some _, .ok => true
        | _, _ => false
      .ok { response := { status := "accepted", action := body.action,
                          broadcast_sent := broadcast_sent },
            db := db', broadcastMsg := msg }
    else .error ⟨403, "Only the host can perform this action"⟩

/-- Sample workshop used by concrete witnesses: starts at time 1000 s,
lasts 60 min, admits 2 participants, trainer 7, no room yet. -/
def wsA : Workshop :=
  { id := 1, trainer_id := 7, start_time := 1000, duration_minutes := 60,
    max_participants := 2 }

/-- Sample database used by concrete witnesses. -/
def dbA : Db :=
  { workshops := [wsA]
    participants := []
    rules := []
    users := [{ id := 7, email := "t@x", full_name := "T" },
              { id := 8, email := "p@x", full_name := "" },
              { id := 9, email := "q@x", full_name := "Q" }] }

/-- Sample database whose workshop is at capacity: participants 8 and 9
hold the two participant slots of `wsA`. -/
def dbFull : Db :=
  { dbA with participants :=
      [{ user_id := 8, workshop_id := 1, joined_at := some 900 },
       { user_id := 9, workshop_id := 1, joined_at := some 901 }] }

/-- Gateway oracle where both calls succeed. -/
def okOracle : DailyOracle :=
  { createRoomResult := .ok, createTokenResult := .ok "tok" }

/-- Gateway oracle where room creation reports a benign conflict. -/
def conflictOracle : DailyOracle :=
  { createRoomResult := .err 409 "room already exists", createTokenResult := .ok "tok" }

/-- Gateway oracle where room creation fails for another reason. -/
def downOracle : DailyOracle :=
  { createRoomResult := .err 500 "internal error", createTokenResult := .ok "tok" }

/-- Sample settings used by concrete witnesses. -/
def stA : Settings := { daily_domain := "daily.example" }

/-- The concrete successful join of user 8 into `wsA` at time 1000, used
by witnesses. -/
def rJoinA : JoinOk :=
  (joinWorkshop 1 8 1000 dbA stA okOracle).toOption.getD
    { response := { token := "", room_url := "", role := "",
                    rules := { force_camera_on := true,
                               force_mic_muted_on_join := true,
                               allow_unmute_after := 0,
                               allow_camera_toggle := true,
                               all_muted := false, all_cameras_off := false } }
      db := dbA
      tokenReq := { room_name := none, user_name := "", user_id := 0,
                    is_owner := false, exp_minutes := 0,
                    start_video_off := false, start_audio_off := false } }

/-- Projection of a host-action outcome to its persisted database and the
`broadcast_sent` flag, used to state witnesses without binders. -/
def hostDbAndSent (r : Except ApiError HostOk) : Except ApiError (Db × Bool) :=
  r.map (fun hb => (hb.db, hb.response.broadcast_sent))

theorem updateFirst_find? {α : Type} (p : α → Bool) (f : α → α) (l : List α)
    (hpf : ∀ a, p a = true → p (f a) = true) :
    (updateFirst p f l).find? p = (l.find? p).map f := by
  induction l with
  | nil => simp [updateFirst]
  | cons a t ih =>
    by_cases h : p a = true
    · simp [updateFirst, h, List.find?_cons_of_pos, hpf a h]
    · have h' : p a = false := by simpa using h
      simp [updateFirst, h', List.find?_cons_of_neg, ih]

theorem updateFirst_filter {α : Type} (p : α → Bool) (f : α → α) (l : List α)
    (hpf : ∀ a, p a = true → p (f a) = true)
    (hlen : (l.filter p).length ≤ 1) :
    (updateFirst p f l).filter p = (l.filter p).map f := by
  induction l with
  | nil => simp [updateFirst]
  | cons a t ih =>
    by_cases h : p a = true
    · have ht : t.filter p = [] := by
        have h1 := hlen
        simp [List.filter_cons, h] at h1
        exact List.filter_eq_nil_iff.mpr (fun a ha => by simp [h1 a ha])
      simp [updateFirst, h, List.filter_cons, hpf a h, ht]
    · have h' : p a = false := by simpa using h
      have hlen' : (t.filter p).length ≤ 1 := by
        simpa [List.filter_cons, h'] using hlen
      simp [updateFirst, h', List.filter_cons, ih hlen']

theorem upsertParticipant_workshops (db : Db) (uid wid : Nat)
    (role : ParticipantRole) (now : Int) :
    (upsertParticipant db uid wid role now).workshops = db.workshops := by
  unfold upsertParticipant; split <;> rfl

theorem upsertParticipant_rules (db : Db) (uid wid : Nat)
    (role : ParticipantRole) (now : Int) :
    (upsertParticipant db uid wid role now).rules = db.rules := by
  unfold upsertParticipant; split <;> rfl

theorem upsertParticipant_users (db : Db) (uid wid : Nat)
    (role : ParticipantRole) (now : Int) :
    (upsertParticipant db uid wid role now).users = db.users := by
  unfold upsertParticipant; split <;> rfl

theorem findRules_ext {db1 db2 : Db} (wid : Nat) (h : db1.rules = db2.rules) :
    findRules db1 wid = findRules db2 wid := by
  unfold findRules; rw [h]

theorem findUser_ext {db1 db2 : Db} (uid : Nat) (h : db1.users = db2.users) :
    findUser db1 uid = findUser db2 uid := by
  unfold findUser; rw [h]

theorem video_room_id_of_not_falsy (w : Workshop)
    (h : optFalsy w.video_room_id = false) :
    w.video_room_id = some (roomNameFor w) := by
  unfold optFalsy at h
  unfold roomNameFor
  cases hv : w.video_room_id with
  | none => rw [hv] at h; simp at h
  | some s =>
    rw [hv] at h
    simp only [h]
    simp at h
    simp [h]

theorem provisionDb_users (wid uid : Nat) (now : Int) (db : Db)
    (workshop : Workshop) (role : ParticipantRole) :
    (provisionDb wid uid now db workshop role).users = db.users := by
  unfold provisionDb
  split <;> simp [upsertParticipant_users]

theorem provisionDb_rules (wid uid : Nat) (now : Int) (db : Db)
    (workshop : Workshop) (role : ParticipantRole) :
    (provisionDb wid uid now db workshop role).rules = db.rules := by
  unfold provisionDb
  split <;> simp [upsertParticipant_rules]

theorem provisionDb_participants (wid uid : Nat) (now : Int) (db : Db)
    (workshop : Workshop) (role : ParticipantRole) :
    (provisionDb wid uid now db workshop role).participants =
      (upsertParticipant db uid wid role now).participants := by
  unfold provisionDb
  split <;> rfl

theorem provisionDb_workshops (wid uid : Nat) (now : Int) (db : Db)
    (workshop : Workshop) (role : ParticipantRole) :
    (provisionDb wid uid now db workshop role).workshops =
      (if optFalsy workshop.video_room_id = true then
        updateFirst (fun w => w.id == wid)
          (fun _ => { workshop with video_room_id := some (roomNameFor workshop) })
          db.workshops
      else db.workshops) := by
  unfold provisionDb
  split <;> simp_all [upsertParticipant_workshops]

theorem provisionedWorkshop_room (workshop : Workshop) :
    (provisionedWorkshop workshop).video_room_id =
      some (roomNameFor workshop) := by
  unfold provisionedWorkshop
  split
  · rfl
  · next h =>
    exact video_room_id_of_not_falsy workshop (by simpa using h)

/-- Inversion of a successful `joinProvision`: every component of the
result in terms of the initial state. -/
theorem joinProvision_ok_inv {wid uid : Nat} {now : Int} {db : Db}
    {st : Settings} {daily : DailyOracle} {workshop : Workshop}
    {is_host : Bool} {role : ParticipantRole} {r : JoinOk}
    (hr : joinProvision wid uid now db st daily workshop is_host role = .ok r) :
    ∃ user token,
      findUser db uid = some user ∧
      daily.createTokenResult = .ok token ∧
      roomCheckOf daily.createRoomResult = none ∧
      r.db.participants = (upsertParticipant db uid wid role now).participants ∧
      r.db.rules = db.rules ∧
      r.db.users = db.users ∧
      r.db.workshops =
        (if optFalsy workshop.video_room_id = true then
          updateFirst (fun w => w.id == wid)
            (fun _ => { workshop with video_room_id := some (roomNameFor workshop) })
            db.workshops
        else db.workshops) ∧
      r.response.room_url =
        "https://" ++ st.daily_domain ++ "/" ++ roomNameFor workshop ∧
      r.response.rules = rulesView (findRules db wid) ∧
      r.response.role = role.value ∧
      r.response.token = token ∧
      r.tokenReq =
        { room_name := some (roomNameFor workshop)
          user_name := displayName user
          user_id := uid
          is_owner := is_host
          exp_minutes := 10
          start_video_off :=
            ((!(rulesView (findRules db wid)).force_camera_on)
              || (rulesView (findRules db wid)).all_cameras_off)
          start_audio_off :=
            ((rulesView (findRules db wid)).force_mic_muted_on_join
              || (rulesView (findRules db wid)).all_muted) } := by
  unfold joinProvision at hr
  cases hroom : roomCheckOf daily.createRoomResult with
  | some e => rw [hroom] at hr; exact absurd hr (by simp)
  | none =>
    rw [hroom] at hr
    dsimp only at hr
    rw [findUser_ext uid (provisionDb_users wid uid now db workshop role)] at hr
    rw [findRules_ext wid (provisionDb_rules wid uid now db workshop role)] at hr
    cases huser : findUser db uid with
    | none => rw [huser] at hr; exact absurd hr (by simp)
    | some user =>
      rw [huser] at hr
      dsimp only at hr
      cases htok : daily.createTokenResult with
      | err s d => rw [htok] at hr; exact absurd hr (by simp)
      | ok token =>
        rw [htok] at hr
        dsimp only at hr
        simp only [Except.ok.injEq] at hr
        subst hr
        refine ⟨user, token, rfl, rfl, rfl, ?_, ?_, ?_, ?_, ?_, ?_, ?_, ?_, ?_⟩
        · exact provisionDb_participants wid uid now db workshop role
        · exact provisionDb_rules wid uid now db workshop role
        · exact provisionDb_users wid uid now db workshop role
        · exact provisionDb_workshops wid uid now db workshop role
        · simp [provisionedWorkshop_room]
        · cases hrr : findRules db wid <;> simp [rulesView, hrr]
        · rfl
        · rfl
        · cases hrr : findRules db wid <;>
            simp [rulesView, hrr, provisionedWorkshop_room]

theorem roomCheckOf_some {res : RoomResult} {e : ApiError}
    (h : roomCheckOf res = some e) : e = ⟨502, "Video service unavailable"⟩ := by
  unfold roomCheckOf at h
  cases res with
  | ok => exact absurd h (by simp)
  | err s d =>
    dsimp only at h
    by_cases hb : strContainsSub "already exists" d = true
    · rw [if_pos hb] at h; exact absurd h (by simp)
    · rw [if_neg hb] at h
      simp only [Option.some.injEq] at h
      exact h.symm

theorem joinProvision_error_inv {wid uid : Nat} {now : Int} {db : Db}
    {st : Settings} {daily : DailyOracle} {workshop : Workshop}
    {is_host : Bool} {role : ParticipantRole} {e : ApiError}
    (hr : joinProvision wid uid now db st daily workshop is_host role = .error e) :
    e = ⟨502, "Video service unavailable"⟩ ∨ e = ⟨500, "Internal Server Error"⟩ := by
  unfold joinProvision at hr
  cases hroom : roomCheckOf daily.createRoomResult with
  | some e' =>
    rw [hroom] at hr
    simp only [Except.error.injEq] at hr
    exact Or.inl (hr ▸ roomCheckOf_some hroom)
  | none =>
    rw [hroom] at hr
    dsimp only at hr
    rw [findUser_ext uid (provisionDb_users wid uid now db workshop role)] at hr
    rw [findRules_ext wid (provisionDb_rules wid uid now db workshop role)] at hr
    cases huser : findUser db uid with
    | none =>
      rw [huser] at hr
      simp only [Except.error.injEq] at hr
      exact Or.inr hr.symm
    | some user =>
      rw [huser] at hr
      dsimp only at hr
      cases htok : daily.createTokenResult with
      | err s d =>
        rw [htok] at hr
        simp only [Except.error.injEq] at hr
        exact Or.inl hr.symm
      | ok token => rw [htok] at hr; exact absurd hr (by simp)

theorem joinWorkshop_eq_provision {wid uid : Nat} {now : Int} {db : Db}
    {st : Settings} {daily : DailyOracle} {w : Workshop}
    (hw : findWorkshop db wid = some w)
    (h1 : ¬ now < earliestJoin w) (h2 : ¬ latestJoin w < now)
    (h3 : ¬ ((uid == w.trainer_id) = false
      ∧ w.max_participants ≤ participantCount db wid)) :
    joinWorkshop wid uid now db st daily =
      joinProvision wid uid now db st daily w (uid == w.trainer_id)
        (if (uid == w.trainer_id) = true then ParticipantRole.host
         else ParticipantRole.participant) := by
  unfold joinWorkshop
  rw [hw]
  dsimp only
  rw [if_neg h1, if_neg h2, if_neg h3]

theorem joinWorkshop_ok_cases {wid uid : Nat} {now : Int} {db : Db}
    {st : Settings} {daily : DailyOracle} {r : JoinOk}
    (hr : joinWorkshop wid uid now db st daily = .ok r) :
    ∃ w, findWorkshop db wid = some w ∧
      ¬ now < earliestJoin w ∧ ¬ latestJoin w < now ∧
      ¬ ((uid == w.trainer_id) = false
        ∧ w.max_participants ≤ participantCount db wid) ∧
      joinProvision wid uid now db st daily w (uid == w.trainer_id)
        (if (uid == w.trainer_id) = true then ParticipantRole.host
         else ParticipantRole.participant) = .ok r := by
  unfold joinWorkshop at hr
  cases hw : findWorkshop db wid with
  | none => rw [hw] at hr; exact absurd hr (by simp)
  | some w =>
    rw [hw] at hr
    dsimp only at hr
    by_cases h1 : now < earliestJoin w
    · rw [if_pos h1] at hr; exact absurd hr (by simp)
    · rw [if_neg h1] at hr
      by_cases h2 : latestJoin w < now
      · rw [if_pos h2] at hr; exact absurd hr (by simp)
      · rw [if_neg h2] at hr
        by_cases h3 : (uid == w.trainer_id) = false
          ∧ w.max_participants ≤ participantCount db wid
        · rw [if_pos h3] at hr; exact absurd hr (by simp)
        · rw [if_neg h3] at hr
          exact ⟨w, rfl, h1, h2, h3, hr⟩

theorem findWorkshop_ext {db1 db2 : Db} (wid : Nat)
    (h : db1.workshops = db2.workshops) :
    findWorkshop db1 wid = findWorkshop db2 wid := by
  unfold findWorkshop; rw [h]

theorem roomNameFor_of_falsy (w : Workshop)
    (h : optFalsy w.video_room_id = true) :
    roomNameFor w = "kalba-" ++ toString w.id := by
  unfold optFalsy at h
  unfold roomNameFor
  cases hv : w.video_room_id with
  | none => rfl
  | some s =>
    rw [hv] at h
    dsimp only at h
    simp [h]

theorem applyHostAction_workshop_id (a : HostActionType) (r : WorkshopRules) :
    (applyHostAction a r).workshop_id = r.workshop_id := by
  cases a <;> rfl

theorem findRules_persist (db : Db) (wid : Nat) (a : HostActionType) :
    findRules (persistHostRules wid a db) wid =
      some (applyHostAction a (storedOrDefault db wid)) := by
  unfold persistHostRules storedOrDefault
  cases h : findRules db wid with
  | none =>
    unfold findRules at h ⊢
    dsimp only
    rw [List.find?_append, h]
    simp [List.find?, applyHostAction_workshop_id]
  | some r =>
    unfold findRules at h ⊢
    dsimp only
    rw [updateFirst_find? _ _ _
      (fun x hx => by simpa [applyHostAction_workshop_id] using hx), h]
    rfl

theorem persistHostRules_workshops (wid : Nat) (a : HostActionType) (db : Db) :
    (persistHostRules wid a db).workshops = db.workshops := by
  unfold persistHostRules
  cases findRules db wid <;> rfl

theorem hostAction_ok_eq {wid actor : Nat} {body : HostAction} {now : Int}
    {db : Db} {b : RoomResult} {w : Workshop}
    (hw : findWorkshop db wid = some w) (ht : actor = w.trainer_id) :
    hostAction wid actor body now db b =
      .ok { response :=
              { status := "accepted", action := body.action,
                broadcast_sent :=
                  match (if optFalsy w.video_room_id then none
                         else some { msg_type := "host_control",
                                     action := body.action.value,
                                     timestamp := toString now,
                                     msg_from := "server" } : Option AppMessage),
                        b with
                  | some _, .ok => true
                  | _, _ => false },
            db := persistHostRules wid body.action db,
            broadcastMsg :=
              if optFalsy w.video_room_id then none
              else some { msg_type := "host_control",
                          action := body.action.value,
                          timestamp := toString now,
                          msg_from := "server" } } := by
  unfold hostAction
  rw [hw]
  dsimp only
  rw [if_pos (by simp [ht])]

theorem hostAction_ok_inv {wid actor : Nat} {body : HostAction} {now : Int}
    {db : Db} {b : RoomResult} {hb : HostOk}
    (hr : hostAction wid actor body now db b = .ok hb) :
    hb.db = persistHostRules wid body.action db ∧
    hb.response.action = body.action ∧
    hb.response.status = "accepted" ∧
    ∃ w, findWorkshop db wid = some w ∧ actor = w.trainer_id := by
  unfold hostAction at hr
  cases hw : findWorkshop db wid with
  | none => rw [hw] at hr; exact absurd hr (by simp)
  | some w =>
    rw [hw] at hr
    dsimp only at hr
    by_cases hc : (actor == w.trainer_id) = true
    · rw [if_pos hc] at hr
      simp only [Except.ok.injEq] at hr
      subst hr
      exact ⟨rfl, rfl, rfl, w, rfl, by simpa using hc⟩
    · rw [if_neg hc] at hr; exact absurd hr (by simp)

theorem rulesView_fields (db : Db) (wid : Nat) :
    (rulesView (findRules db wid)).force_camera_on
        = (storedOrDefault db wid).force_camera_on ∧
    (rulesView (findRules db wid)).force_mic_muted_on_join
        = (storedOrDefault db wid).force_mic_muted_on_join ∧
    (rulesView (findRules db wid)).allow_unmute_after
        = (storedOrDefault db wid).allow_unmute_after ∧
    (rulesView (findRules db wid)).allow_camera_toggle
        = (storedOrDefault db wid).allow_camera_toggle ∧
    (rulesView (findRules db wid)).all_muted
        = (storedOrDefault db wid).all_muted ∧
    (rulesView (findRules db wid)).all_cameras_off
        = (storedOrDefault db wid).all_cameras_off := by
  unfold rulesView storedOrDefault
  cases findRules db wid <;> simp

theorem getWorkshopRules_eq {wid uid : Nat} {db : Db} {w : Workshop}
    (hw : findWorkshop db wid = some w) :
    getWorkshopRules wid uid db = .ok (rulesView (findRules db wid)) := by
  unfold getWorkshopRules rulesView
  rw [hw]

theorem joinWorkshop_oracle_congr {wid uid : Nat} {now : Int} {db : Db}
    {st : Settings} (o1 o2 : DailyOracle)
    (hroom : roomCheckOf o1.createRoomResult = roomCheckOf o2.createRoomResult)
    (htok : o1.createTokenResult = o2.createTokenResult) :
    joinWorkshop wid uid now db st o1 = joinWorkshop wid uid now db st o2 := by
  unfold joinWorkshop joinProvision
  rw [hroom, htok]

/-- C1: for every workshop and every caller role, a join request is
admitted only when `now` lies in the closed window
[`start_time` − 5 min, `start_time` + `duration_minutes` + 10 min]; a
request before the lower bound fails 403 "Workshop has not started yet"
(NotYetOpen), one after the upper bound fails with the distinct 403
"Workshop has ended" (Ended). -/
theorem join_time_window (wid uid : Nat) (now : Int) (db : Db) (st : Settings)
    (daily : DailyOracle) (w : Workshop) (hw : findWorkshop db wid = some w) :
    (now < earliestJoin w →
      joinWorkshop wid uid now db st daily =
        .error ⟨403, "Workshop has not started yet"⟩) ∧
    (latestJoin w < now →
      joinWorkshop wid uid now db st daily =
        .error ⟨403, "Workshop has ended"⟩) ∧
    (∀ r, joinWorkshop wid uid now db st daily = .ok r →
      earliestJoin w ≤ now ∧ now ≤ latestJoin w) := by
  refine ⟨?_, ?_, ?_⟩
  · intro h
    unfold joinWorkshop
    rw [hw]
    dsimp only
    rw [if_pos h]
  · intro h
    have hnot : ¬ now < earliestJoin w := by
      unfold earliestJoin latestJoin at *
      omega
    unfold joinWorkshop
    rw [hw]
    dsimp only
    rw [if_neg hnot, if_pos h]
  · intro r hr
    obtain ⟨w', hw', h1, h2, _, _⟩ := joinWorkshop_ok_cases hr
    rw [hw] at hw'
    simp only [Option.some.injEq] at hw'
    subst hw'
    exact ⟨not_lt.mp h1, not_lt.mp h2⟩

theorem join_time_window_witness :
    joinWorkshop 1 8 0 dbA ⟨"daily.example"⟩ okOracle =
      Except.error ⟨403, "Workshop has not started yet"⟩ :=
  (join_time_window 1 8 0 dbA ⟨"daily.example"⟩ okOracle wsA rfl).1 (by decide)

/-- C2: inside the admission window, a non-trainer join fails 403
"Workshop is full" exactly when the participant-role membership count has
reached `max_participants`; the trainer (host) is never rejected for
capacity. -/
theorem join_capacity (wid uid : Nat) (now : Int) (db : Db) (st : Settings)
    (daily : DailyOracle) (w : Workshop) (hw : findWorkshop db wid = some w)
    (h1 : ¬ now < earliestJoin w) (h2 : ¬ latestJoin w < now) :
    (uid ≠ w.trainer_id →
      (joinWorkshop wid uid now db st daily = .error ⟨403, "Workshop is full"⟩
        ↔ w.max_participants ≤ participantCount db wid)) ∧
    (uid = w.trainer_id →
      joinWorkshop wid uid now db st daily ≠
        .error ⟨403, "Workshop is full"⟩) := by
  constructor
  · intro hne
    constructor
    · intro hfull
      by_contra hcount
      have h3 : ¬ ((uid == w.trainer_id) = false
          ∧ w.max_participants ≤ participantCount db wid) :=
        fun hc => hcount hc.2
      rw [joinWorkshop_eq_provision hw h1 h2 h3] at hfull
      rcases joinProvision_error_inv hfull with h | h <;>
        exact absurd h (by decide)
    · intro hcount
      unfold joinWorkshop
      rw [hw]
      dsimp only
      rw [if_neg h1, if_neg h2, if_pos ⟨by simp [hne], hcount⟩]
  · intro hteq hfull
    have h3 : ¬ ((uid == w.trainer_id) = false
        ∧ w.max_participants ≤ participantCount db wid) :=
      fun hc => by have := hc.1; simp [hteq] at this
    rw [joinWorkshop_eq_provision hw h1 h2 h3] at hfull
    rcases joinProvision_error_inv hfull with h | h <;>
      exact absurd h (by decide)

theorem join_capacity_witness :
    joinWorkshop 1 10 1000 dbFull ⟨"daily.example"⟩ okOracle =
      Except.error ⟨403, "Workshop is full"⟩ :=
  ((join_capacity 1 10 1000 dbFull ⟨"daily.example"⟩ okOracle wsA rfl
      (by decide) (by decide)).1 (by decide)).mpr (by decide)

theorem applyHostAction_idem (a : HostActionType) (r : WorkshopRules) :
    applyHostAction a (applyHostAction a r) = applyHostAction a r := by
  cases a <;> rfl

/-- C3: the camera state issued to a joiner equals `force_camera_on` AND
NOT `all_cameras_off`, the mic state equals `force_mic_muted_on_join` OR
`all_muted` (defaults applying when no rules row exists); after the
trainer issues CAMERAS_OFF_ALL, a subsequent join issues the camera
turned off even when the static `force_camera_on` is true. -/
theorem join_effective_rules (wid uid : Nat) (now : Int) (db : Db)
    (st : Settings) (daily : DailyOracle) :
    (∀ r, joinWorkshop wid uid now db st daily = .ok r →
      (!r.tokenReq.start_video_off) =
        ((storedOrDefault db wid).force_camera_on
          && !(storedOrDefault db wid).all_cameras_off) ∧
      r.tokenReq.start_audio_off =
        ((storedOrDefault db wid).force_mic_muted_on_join
          || (storedOrDefault db wid).all_muted)) ∧
    (∀ (t : Option Nat) (now0 : Int) (b : RoomResult) (hb : HostOk)
        (r2 : JoinOk) (actor : Nat),
      hostAction wid actor { action := .cameras_off_all, target_user_id := t }
          now0 db b = .ok hb →
      joinWorkshop wid uid now hb.db st daily = .ok r2 →
      r2.tokenReq.start_video_off = true) := by
  constructor
  · intro r hr
    obtain ⟨w, hw, _, _, _, hp⟩ := joinWorkshop_ok_cases hr
    obtain ⟨user, token, _, _, _, _, _, _, _, _, _, _, _, htr⟩ :=
      joinProvision_ok_inv hp
    obtain ⟨hf, hm, _, _, hmu, hco⟩ := rulesView_fields db wid
    rw [htr]
    dsimp only
    constructor
    · rw [hf, hco]
      cases (storedOrDefault db wid).force_camera_on <;>
        cases (storedOrDefault db wid).all_cameras_off <;> simp
    · rw [hm, hmu]
  · intro t now0 b hb r2 actor hhost hjoin
    obtain ⟨hdb, _, _, _⟩ := hostAction_ok_inv hhost
    obtain ⟨w2, hw2, _, _, _, hp2⟩ := joinWorkshop_ok_cases hjoin
    obtain ⟨user, token, _, _, _, _, _, _, _, _, _, _, _, htr⟩ :=
      joinProvision_ok_inv hp2
    have hfr : findRules hb.db wid =
        some (applyHostAction .cameras_off_all (storedOrDefault db wid)) := by
      rw [hdb]
      exact findRules_persist db wid .cameras_off_all
    rw [htr]
    dsimp only
    rw [hfr]
    simp [rulesView, applyHostAction]

theorem join_effective_rules_witness :
    (!rJoinA.tokenReq.start_video_off) =
      ((storedOrDefault dbA 1).force_camera_on
        && !(storedOrDefault dbA 1).all_cameras_off) ∧
    rJoinA.tokenReq.start_audio_off =
      ((storedOrDefault dbA 1).force_mic_muted_on_join
        || (storedOrDefault dbA 1).all_muted) :=
  (join_effective_rules 1 8 1000 dbA stA okOracle).1 rJoinA (by decide)

/-- C4: a host action requires the actor to be the workshop's trainer
(anyone else gets 403); a successful action persists exactly the targeted
live-flag transition of the four-action table, leaving every other field
unchanged; the transition is idempotent, repeating the action (also as a
second request) is a no-op, and UNMUTE_ALL after MUTE_ALL restores
`all_muted = false`. -/
theorem host_action_transitions (wid actor : Nat) (body : HostAction)
    (now : Int) (db : Db) (b : RoomResult) (w : Workshop)
    (hw : findWorkshop db wid = some w) :
    (actor ≠ w.trainer_id →
      hostAction wid actor body now db b =
        .error ⟨403, "Only the host can perform this action"⟩) ∧
    (actor = w.trainer_id →
      ∃ hb, hostAction wid actor body now db b = .ok hb ∧
        findRules hb.db wid =
          some (applyHostAction body.action (storedOrDefault db wid))) ∧
    ((applyHostAction .mute_all (storedOrDefault db wid)).all_muted = true ∧
     (applyHostAction .unmute_all (storedOrDefault db wid)).all_muted = false ∧
     (applyHostAction .cameras_off_all
        (storedOrDefault db wid)).all_cameras_off = true ∧
     (applyHostAction .cameras_on_all
        (storedOrDefault db wid)).all_cameras_off = false) ∧
    (∀ a : HostActionType,
      (applyHostAction a (storedOrDefault db wid)).force_camera_on
          = (storedOrDefault db wid).force_camera_on ∧
      (applyHostAction a (storedOrDefault db wid)).force_mic_muted_on_join
          = (storedOrDefault db wid).force_mic_muted_on_join ∧
      (applyHostAction a (storedOrDefault db wid)).allow_unmute_after
          = (storedOrDefault db wid).allow_unmute_after ∧
      (applyHostAction a (storedOrDefault db wid)).allow_camera_toggle
          = (storedOrDefault db wid).allow_camera_toggle) ∧
    ((applyHostAction .mute_all (storedOrDefault db wid)).all_cameras_off
        = (storedOrDefault db wid).all_cameras_off ∧
     (applyHostAction .unmute_all (storedOrDefault db wid)).all_cameras_off
        = (storedOrDefault db wid).all_cameras_off ∧
     (applyHostAction .cameras_off_all (storedOrDefault db wid)).all_muted
        = (storedOrDefault db wid).all_muted ∧
     (applyHostAction .cameras_on_all (storedOrDefault db wid)).all_muted
        = (storedOrDefault db wid).all_muted) ∧
    (∀ (a : HostActionType) (r0 : WorkshopRules),
      applyHostAction a (applyHostAction a r0) = applyHostAction a r0) ∧
    (∀ r0 : WorkshopRules,
      (applyHostAction .unmute_all (applyHostAction .mute_all r0)).all_muted
        = false) ∧
    (actor = w.trainer_id →
      ∀ (now2 : Int) (b2 : RoomResult) (body2 : HostAction)
        (hb hb2 : HostOk),
        body2.action = body.action →
        hostAction wid actor body now db b = .ok hb →
        hostAction wid actor body2 now2 hb.db b2 = .ok hb2 →
        findRules hb2.db wid = findRules hb.db wid) := by
  refine ⟨?_, ?_, ?_, ?_, ?_, ?_, ?_, ?_⟩
  · intro hne
    unfold hostAction
    rw [hw]
    dsimp only
    rw [if_neg (by simp [hne])]
  · intro ht
    refine ⟨_, hostAction_ok_eq hw ht, ?_⟩
    exact findRules_persist db wid body.action
  · exact ⟨rfl, rfl, rfl, rfl⟩
  · intro a; cases a <;> exact ⟨rfl, rfl, rfl, rfl⟩
  · exact ⟨rfl, rfl, rfl, rfl⟩
  · exact applyHostAction_idem
  · intro r0; rfl
  · intro ht now2 b2 body2 hb hb2 hba h1 h2
    have e1 := (hostAction_ok_inv h1).1
    have e2 := (hostAction_ok_inv h2).1
    have f1 : findRules hb.db wid =
        some (applyHostAction body.action (storedOrDefault db wid)) := by
      rw [e1]; exact findRules_persist db wid body.action
    have f2 : findRules hb2.db wid =
        some (applyHostAction body2.action (storedOrDefault hb.db wid)) := by
      rw [e2]; exact findRules_persist hb.db wid body2.action
    have s1 : storedOrDefault hb.db wid =
        applyHostAction body.action (storedOrDefault db wid) := by
      unfold storedOrDefault
      rw [f1]
      rfl
    rw [f2, s1, hba, applyHostAction_idem, f1]

theorem host_action_transitions_witness :
    hostAction 1 8 { action := .mute_all, target_user_id := none } 5 dbA .ok =
      Except.error ⟨403, "Only the host can perform this action"⟩ :=
  (host_action_transitions 1 8 { action := .mute_all, target_user_id := none }
    5 dbA .ok wsA rfl).1 (by decide)

/-- C5: for an authorized host action the persisted database state equals
`persistHostRules` applied before any broadcast and is the same for every
broadcast outcome; a broadcast failure only makes `broadcast_sent = false`
in the acknowledgment — the request still succeeds and the persisted
state is unchanged. -/
theorem host_action_persist_before_broadcast (wid actor : Nat)
    (body : HostAction) (now : Int) (db : Db) (b : RoomResult) (w : Workshop)
    (hw : findWorkshop db wid = some w) (ht : actor = w.trainer_id) :
    ∃ hb, hostAction wid actor body now db b = .ok hb ∧
      hb.db = persistHostRules wid body.action db ∧
      (∀ b2, ∃ hb2, hostAction wid actor body now db b2 = .ok hb2 ∧
        hb2.db = hb.db) ∧
      (∀ s d, b = .err s d → hb.response.broadcast_sent = false) := by
  refine ⟨_, hostAction_ok_eq hw ht, rfl, ?_, ?_⟩
  · intro b2
    exact ⟨_, hostAction_ok_eq hw ht, rfl⟩
  · intro s d hbd
    subst hbd
    dsimp only
    cases hF : optFalsy w.video_room_id <;> simp [hF]

theorem host_action_persist_before_broadcast_witness :
    hostDbAndSent (hostAction 1 7 { action := .mute_all, target_user_id := none }
        5 dbA (.err 500 "boom")) =
      .ok (persistHostRules 1 HostActionType.mute_all dbA, false) := by
  obtain ⟨hb, h1, h2, _, h4⟩ :=
    host_action_persist_before_broadcast 1 7
      { action := .mute_all, target_user_id := none } 5 dbA
      (.err 500 "boom") wsA rfl rfl
  rw [hostDbAndSent, h1]
  simp [Except.map, h2, h4 500 "boom" rfl]

/-- C6: starting from a state with at most one membership row for the
(user, workshop) pair, every existing row carrying the role derived from
the workshop's trainer, a successful join leaves exactly one row for
that pair, holding the resolved role and `joined_at` equal to the join
time — an update in place on re-join, never a duplicate. -/
theorem join_membership_upsert (wid uid : Nat) (now : Int) (db : Db)
    (st : Settings) (daily : DailyOracle) (r : JoinOk) (w : Workshop)
    (hw : findWorkshop db wid = some w)
    (hone : (membershipRows db uid wid).length ≤ 1)
    (hrole : ∀ p ∈ membershipRows db uid wid,
      p.role = (if (uid == w.trainer_id) = true then ParticipantRole.host
                else ParticipantRole.participant))
    (hr : joinWorkshop wid uid now db st daily = .ok r) :
    (membershipRows r.db uid wid).length = 1 ∧
    ∀ p ∈ membershipRows r.db uid wid,
      p.role = (if (uid == w.trainer_id) = true then ParticipantRole.host
                else ParticipantRole.participant) ∧
      p.joined_at = some now := by
  obtain ⟨w', hw', _, _, _, hp⟩ := joinWorkshop_ok_cases hr
  rw [hw] at hw'
  simp only [Option.some.injEq] at hw'
  subst hw'
  obtain ⟨_, _, _, _, _, hpart, _, _, _, _, _, _, _, _⟩ :=
    joinProvision_ok_inv hp
  unfold membershipRows at hone hrole ⊢
  rw [hpart]
  unfold upsertParticipant
  cases hex : findParticipant db uid wid with
  | none =>
    dsimp only
    rw [List.filter_append]
    have hnil : db.participants.filter
        (fun p => p.user_id == uid && p.workshop_id == wid) = [] := by
      unfold findParticipant at hex
      refine List.filter_eq_nil_iff.mpr ?_
      intro a ha
      have := List.find?_eq_none.mp hex a ha
      simpa using this
    rw [hnil]
    simp
  | some p0 =>
    dsimp only
    have hpres : ∀ a : WorkshopParticipant,
        (a.user_id == uid && a.workshop_id == wid) = true →
        ((({ a with joined_at := some now } : WorkshopParticipant).user_id == uid)
          && (({ a with joined_at := some now }
            : WorkshopParticipant).workshop_id == wid)) = true :=
      fun a ha => ha
    rw [updateFirst_filter _ _ db.participants hpres hone]
    rcases hfil : db.participants.filter
        (fun p => p.user_id == uid && p.workshop_id == wid) with _ | ⟨x, xs⟩
    · exfalso
      unfold findParticipant at hex
      have hnone : db.participants.find?
          (fun p => p.user_id == uid && p.workshop_id == wid) = none :=
        List.find?_eq_none.mpr (fun a ha hpa => by
          have := List.filter_eq_nil_iff.mp hfil a ha
          exact this hpa)
      rw [hnone] at hex
      exact Option.noConfusion hex
    · have hxs : xs = [] := by
        rw [hfil] at hone
        simp [List.length_cons] at hone
        exact hone
      subst hxs
      have hx : x ∈ db.participants.filter
          (fun p => p.user_id == uid && p.workshop_id == wid) := by
        rw [hfil]
        exact List.mem_cons_self x []
      have hxrole := hrole x hx
      rw [hfil]
      refine ⟨by simp, ?_⟩
      intro p hpmem
      simp only [List.map_cons, List.map_nil, List.mem_singleton] at hpmem
      subst hpmem
      exact ⟨hxrole, rfl⟩

theorem join_membership_upsert_witness :
    (membershipRows rJoinA.db 8 1).length = 1 :=
  (join_membership_upsert 1 8 1000 dbA stA okOracle rJoinA wsA rfl
    (by decide) (by decide) (by decide)).1

/-- C7: a workshop's `video_room_id` is assigned at most once (an already
set value is never overwritten), to the deterministic name
`kalba-{workshop.id}`; every successful join returns `room_url` equal to
the composition of the configured domain with that room name, the same
value for every joiner. -/
theorem join_room_identity (wid uid : Nat) (now : Int) (db : Db)
    (st : Settings) (daily : DailyOracle) (w : Workshop)
    (hw : findWorkshop db wid = some w) :
    (∀ r, joinWorkshop wid uid now db st daily = .ok r →
      ∃ w2, findWorkshop r.db wid = some w2 ∧
        w2.video_room_id = some (roomNameFor w) ∧
        (optFalsy w.video_room_id = false →
          w2.video_room_id = w.video_room_id) ∧
        (optFalsy w.video_room_id = true →
          w2.video_room_id = some ("kalba-" ++ toString w.id)) ∧
        r.response.room_url =
          "https://" ++ st.daily_domain ++ "/" ++ roomNameFor w) ∧
    (∀ u1 u2 r1 r2,
      joinWorkshop wid u1 now db st daily = .ok r1 →
      joinWorkshop wid u2 now db st daily = .ok r2 →
      r1.response.room_url = r2.response.room_url) := by
  constructor
  · intro r hr
    obtain ⟨w', hw', _, _, _, hp⟩ := joinWorkshop_ok_cases hr
    rw [hw] at hw'
    simp only [Option.some.injEq] at hw'
    subst hw'
    obtain ⟨_, _, _, _, _, _, _, _, hws, hurl, _, _, _, _⟩ :=
      joinProvision_ok_inv hp
    have hwfind : db.workshops.find? (fun x => x.id == wid) = some w := hw
    have hpredw : (w.id == wid) = true := by
      have hps := List.find?_some hwfind
      simpa using hps
    cases hF : optFalsy w.video_room_id with
    | true =>
      have hfind : findWorkshop r.db wid =
          some { w with video_room_id := some (roomNameFor w) } := by
        unfold findWorkshop
        rw [hws, if_pos hF]
        rw [updateFirst_find? (fun x => x.id == wid)
          (fun _ => { w with video_room_id := some (roomNameFor w) })
          db.workshops (fun a _ => hpredw)]
        rw [hwfind]
        rfl
      refine ⟨_, hfind, rfl, ?_, ?_, hurl⟩
      · intro hc
        exact absurd hc (by decide)
      · intro _
        rw [show ({ w with video_room_id := some (roomNameFor w) }
            : Workshop).video_room_id = some (roomNameFor w) from rfl]
        rw [roomNameFor_of_falsy w hF]
    | false =>
      have hfind : findWorkshop r.db wid = some w := by
        unfold findWorkshop
        rw [hws, if_neg (by simp [hF])]
        exact hwfind
      refine ⟨w, hfind, video_room_id_of_not_falsy w hF, fun _ => rfl,
        ?_, hurl⟩
      intro hc
      exact absurd hc (by decide)
  · intro u1 u2 r1 r2 h1 h2
    obtain ⟨wa, hwa, _, _, _, hpa⟩ := joinWorkshop_ok_cases h1
    rw [hw] at hwa
    simp only [Option.some.injEq] at hwa
    subst hwa
    obtain ⟨_, _, _, _, _, _, _, _, _, hurl1, _, _, _, _⟩ :=
      joinProvision_ok_inv hpa
    obtain ⟨wb, hwb, _, _, _, hpb⟩ := joinWorkshop_ok_cases h2
    rw [hw] at hwb
    simp only [Option.some.injEq] at hwb
    subst hwb
    obtain ⟨_, _, _, _, _, _, _, _, _, hurl2, _, _, _, _⟩ :=
      joinProvision_ok_inv hpb
    rw [hurl1, hurl2]

theorem join_room_identity_witness :
    rJoinA.response.room_url =
      "https://" ++ stA.daily_domain ++ "/" ++ roomNameFor wsA := by
  obtain ⟨w2, _, _, _, _, hurl⟩ :=
    (join_room_identity 1 8 1000 dbA stA okOracle wsA rfl).1 rJoinA (by decide)
  exact hurl

/-- C8: during a join, a room-creation failure whose detail reports
"already exists" behaves exactly like success; any other room-creation
failure, and any token-issuance failure, makes the join fail 502 "Video
service unavailable". -/
theorem join_upstream_policy (wid uid : Nat) (now : Int) (db : Db)
    (st : Settings) :
    (∀ (c : Nat) (d : String) (tok : TokenResult),
      strContainsSub "already exists" d = true →
      joinWorkshop wid uid now db st ⟨.err c d, tok⟩ =
        joinWorkshop wid uid now db st ⟨.ok, tok⟩) ∧
    (∀ (c : Nat) (d : String) (tok : TokenResult) (w : Workshop),
      findWorkshop db wid = some w →
      ¬ now < earliestJoin w → ¬ latestJoin w < now →
      ¬ ((uid == w.trainer_id) = false
        ∧ w.max_participants ≤ participantCount db wid) →
      strContainsSub "already exists" d = false →
      joinWorkshop wid uid now db st ⟨.err c d, tok⟩ =
        .error ⟨502, "Video service unavailable"⟩) ∧
    (∀ (rr : RoomResult) (c2 : Nat) (d2 : String) (w : Workshop) (u : User),
      findWorkshop db wid = some w →
      ¬ now < earliestJoin w → ¬ latestJoin w < now →
      ¬ ((uid == w.trainer_id) = false
        ∧ w.max_participants ≤ participantCount db wid) →
      roomCheckOf rr = none →
      findUser db uid = some u →
      joinWorkshop wid uid now db st ⟨rr, .err c2 d2⟩ =
        .error ⟨502, "Video service unavailable"⟩) := by
  refine ⟨?_, ?_, ?_⟩
  · intro c d tok hben
    exact joinWorkshop_oracle_congr _ _ (by simp [roomCheckOf, hben]) rfl
  · intro c d tok w hw h1 h2 h3 hmal
    rw [joinWorkshop_eq_provision hw h1 h2 h3]
    unfold joinProvision
    rw [show roomCheckOf (DailyOracle.mk (.err c d) tok).createRoomResult =
        some ⟨502, "Video service unavailable"⟩ from by
      simp [roomCheckOf, hmal]]
  · intro rr c2 d2 w u hw h1 h2 h3 hroom huser
    rw [joinWorkshop_eq_provision hw h1 h2 h3]
    unfold joinProvision
    dsimp only
    rw [hroom]
    dsimp only
    rw [findUser_ext uid (provisionDb_users wid uid now db w _), huser]

theorem join_upstream_policy_witness :
    joinWorkshop 1 8 1000 dbA stA
        ⟨.err 409 "room already exists", .ok "tok"⟩ =
      joinWorkshop 1 8 1000 dbA stA ⟨.ok, .ok "tok"⟩ :=
  (join_upstream_policy 1 8 1000 dbA stA).1 409 "room already exists"
    (.ok "tok") (by decide)

/-- C9: for the same stored state the rules view returned by the join
path equals the one returned by the standalone rules query, and when no
rules row exists the query returns the defaults: camera on, mic muted on
join, `allow_unmute_after = 0`, camera toggle allowed, both live flags
false. -/
theorem rules_views_agree (wid uid uid2 : Nat) (now : Int) (db : Db)
    (st : Settings) (daily : DailyOracle) :
    (∀ r rr, joinWorkshop wid uid now db st daily = .ok r →
      getWorkshopRules wid uid2 db = .ok rr →
      r.response.rules = rr) ∧
    (∀ w, findWorkshop db wid = some w → findRules db wid = none →
      getWorkshopRules wid uid2 db =
        .ok { force_camera_on := true, force_mic_muted_on_join := true,
              allow_unmute_after := 0, allow_camera_toggle := true,
              all_muted := false, all_cameras_off := false }) := by
  constructor
  · intro r rr hj hg
    obtain ⟨w, hw, _, _, _, hp⟩ := joinWorkshop_ok_cases hj
    obtain ⟨_, _, _, _, _, _, _, _, _, _, hrespr, _, _, _⟩ :=
      joinProvision_ok_inv hp
    rw [getWorkshopRules_eq hw] at hg
    simp only [Except.ok.injEq] at hg
    rw [hrespr, hg]
  · intro w hw hnone
    rw [getWorkshopRules_eq hw, hnone]
    rfl

theorem rules_views_agree_witness :
    rJoinA.response.rules =
      { force_camera_on := true, force_mic_muted_on_join := true,
        allow_unmute_after := 0, allow_camera_toggle := true,
        all_muted := false, all_cameras_off := false } :=
  (rules_views_agree 1 8 9 1000 dbA stA okOracle).1 rJoinA
    { force_camera_on := true, force_mic_muted_on_join := true,
      allow_unmute_after := 0, allow_camera_toggle := true,
      all_muted := false, all_cameras_off := false }
    (by decide) (by decide)

/-- C10: two host-action requests by the same actor that differ only in
`target_user_id` produce identical results — the field is accepted in the
body but never read by the handler. -/
theorem host_action_ignores_target (wid actor : Nat) (a : HostActionType)
    (t1 t2 : Option Nat) (now : Int) (db : Db) (b : RoomResult) :
    hostAction wid actor { action := a, target_user_id := t1 } now db b =
      hostAction wid actor { action := a, target_user_id := t2 } now db b := rfl

end Kalba
